import Mathlib

/-!
Verification of the zlib shim header `CGRPCZlib.h` and of the streaming
codec contract specified for the layer that sits on top of it.

Part 1 embeds the shim itself: each `CGRPCNIOTransportZlib_*` function is a
one-line forwarding call into zlib, modelled over an abstract zlib API whose
state type is a parameter. Part 2 embeds the macro-expansion semantics of
`deflateInit2`/`inflateInit2` (the zlib headers expand them at the shim's own
compile time, passing the compiled-in `ZLIB_VERSION` and `sizeof(z_stream)` to
the library's version check). Part 3 models the streaming codec (Session,
open, process, bound, reset, close) from the specification, since that layer
of the repository is not part of the sources given here.
-/

/-- A byte: the value of one `Bytef`. -/
abbrev Byte := Fin 256

/- ### Part 1: the shim as forwarding calls into an abstract zlib API.

`σ` is the state of the process visible to zlib (the `z_stream` pointed to by
the `z_streamp` argument together with everything it reaches). Each zlib entry
point both returns a value and may update that state, so it is modelled as a
state transformer. -/

/-- The zlib API surface used by the shim. Each field is one zlib function,
returning its `int` (or `uLong` for `deflateBound`) result and the new state. -/
structure ZlibAPI (σ : Type) where
  deflateInit2 : σ → Int → Int → Int → Int → Int → Int × σ
  deflateBound : σ → Nat → Nat × σ
  deflate : σ → Int → Int × σ
  deflateReset : σ → Int × σ
  deflateEnd : σ → Int × σ
  inflateInit2 : σ → Int → Int × σ
  inflate : σ → Int → Int × σ
  inflateReset : σ → Int × σ
  inflateEnd : σ → Int × σ

/-- `return deflateInit2(stream, level, method, windowBits, memLevel, strategy);` -/
def CGRPCNIOTransportZlib_deflateInit2 {σ : Type} (z : ZlibAPI σ) (stream : σ)
    (level method windowBits memLevel strategy : Int) : Int × σ :=
  z.deflateInit2 stream level method windowBits memLevel strategy

/-- `return deflateBound(strm, sourceLen);` -/
def CGRPCNIOTransportZlib_deflateBound {σ : Type} (z : ZlibAPI σ) (strm : σ)
    (sourceLen : Nat) : Nat × σ :=
  z.deflateBound strm sourceLen

/-- `return deflate(strm, flush);` -/
def CGRPCNIOTransportZlib_deflate {σ : Type} (z : ZlibAPI σ) (strm : σ)
    (flush : Int) : Int × σ :=
  z.deflate strm flush

/-- `return deflateReset(strm);` -/
def CGRPCNIOTransportZlib_deflateReset {σ : Type} (z : ZlibAPI σ) (strm : σ) :
    Int × σ :=
  z.deflateReset strm

/-- `return deflateEnd(strm);` -/
def CGRPCNIOTransportZlib_deflateEnd {σ : Type} (z : ZlibAPI σ) (strm : σ) :
    Int × σ :=
  z.deflateEnd strm

/-- `return inflateInit2(stream, windowBits);` -/
def CGRPCNIOTransportZlib_inflateInit2 {σ : Type} (z : ZlibAPI σ) (stream : σ)
    (windowBits : Int) : Int × σ :=
  z.inflateInit2 stream windowBits

/-- `return inflate(strm, flush);` -/
def CGRPCNIOTransportZlib_inflate {σ : Type} (z : ZlibAPI σ) (strm : σ)
    (flush : Int) : Int × σ :=
  z.inflate strm flush

/-- `return inflateReset(strm);` -/
def CGRPCNIOTransportZlib_inflateReset {σ : Type} (z : ZlibAPI σ) (strm : σ) :
    Int × σ :=
  z.inflateReset strm

/-- `return inflateEnd(strm);` -/
def CGRPCNIOTransportZlib_inflateEnd {σ : Type} (z : ZlibAPI σ) (strm : σ) :
    Int × σ :=
  z.inflateEnd strm

/-- `return (Bytef *) in;` — the pointer-cast helper. A pointer is its
address (`Nat`, with `0` the null pointer); `μ` is the memory, passed through
untouched. The value returned does not depend on `μ` at all, which is how the
absence of any memory access is expressed. -/
def CGRPCNIOTransportZlib_castVoidToBytefPointer {μ : Type} (inp : Nat) (mem : μ) :
    Nat × μ :=
  (inp, mem)

/- ### Part 2: macro-expansion semantics of the two init entry points.

Modelled from the spec: the bodies of zlib's `deflateInit2` / `inflateInit2`
macros and of `deflateInit2_` / `inflateInit2_` are not among the given
sources (zlib is an external dependency; only `#include <zlib.h>` appears).
They are modelled here from zlib's documented behaviour: the macro expands to
a call of the underscore function with two extra trailing arguments,
`ZLIB_VERSION` and `(int)sizeof(z_stream)` as seen by the expanding
translation unit, and the underscore function returns `Z_VERSION_ERROR`
without touching the stream when the version string is null, its first
character differs from the linked library's, or the stream size differs. -/

/-- `Z_VERSION_ERROR` (-6) from zlib.h. -/
def zVersionError : Int := -6

/-- First character of a C string, with the empty string reading as NUL. -/
def head0 (l : List Char) : Char := l.headD (Char.ofNat 0)

/-- The linked zlib library: its own `ZLIB_VERSION`, its own
`sizeof(z_stream)`, and the real initialisation code run once the version
check passes. -/
structure ZlibLib (σ : Type) where
  libVersion : List Char
  libStreamSize : Int
  deflateInit2Impl : σ → Int → Int → Int → Int → Int → Int × σ
  inflateInit2Impl : σ → Int → Int × σ

/-- `deflateInit2_`: the version-checked initialiser. `version` is `none` for
a NULL pointer. -/
def deflateInit2VersionChecked {σ : Type} (L : ZlibLib σ) (s : σ)
    (level method windowBits memLevel strategy : Int)
    (version : Option (List Char)) (streamSize : Int) : Int × σ :=
  match version with
  | none => (zVersionError, s)
  | some v =>
    if head0 v ≠ head0 L.libVersion ∨ streamSize ≠ L.libStreamSize then
      (zVersionError, s)
    else
      L.deflateInit2Impl s level method windowBits memLevel strategy

/-- `inflateInit2_`: the version-checked initialiser for the inflate side. -/
def inflateInit2VersionChecked {σ : Type} (L : ZlibLib σ) (s : σ)
    (windowBits : Int) (version : Option (List Char)) (streamSize : Int) :
    Int × σ :=
  match version with
  | none => (zVersionError, s)
  | some v =>
    if head0 v ≠ head0 L.libVersion ∨ streamSize ≠ L.libStreamSize then
      (zVersionError, s)
    else
      L.inflateInit2Impl s windowBits

/-- The values baked into the shim's translation unit when `CGRPCZlib.h` was
compiled: its `ZLIB_VERSION` string and its `sizeof(z_stream)`. -/
structure ShimBuild where
  zlibVersion : List Char
  zStreamSize : Int

/-- The shim's `CGRPCNIOTransportZlib_deflateInit2` after macro expansion:
the macro expanded inside the shim's translation unit, so the compiled-in
constants of `ShimBuild` are what reach the version check. -/
def shimDeflateInit2Expanded {σ : Type} (B : ShimBuild) (L : ZlibLib σ) (s : σ)
    (level method windowBits memLevel strategy : Int) : Int × σ :=
  deflateInit2VersionChecked L s level method windowBits memLevel strategy
    (some B.zlibVersion) B.zStreamSize

/-- The shim's `CGRPCNIOTransportZlib_inflateInit2` after macro expansion. -/
def shimInflateInit2Expanded {σ : Type} (B : ShimBuild) (L : ZlibLib σ) (s : σ)
    (windowBits : Int) : Int × σ :=
  inflateInit2VersionChecked L s windowBits (some B.zlibVersion) B.zStreamSize

/- ### Part 3: the streaming codec.

Modelled from the spec: the Session-based streaming compression layer that
the repository builds on top of this shim (open / process / bound / reset /
close over zlib streams) is not among the given sources; it is modelled here
from the specification's StreamCodec contract. The encoded byte format is a
concrete self-delimiting framing (escaped payload, terminator, checksum)
standing in for the DEFLATE bitstream, which the spec treats as an external
entropy-coding primitive. -/

/-- Direction of a Session. -/
inductive Direction where
  | compress
  | decompress
deriving DecidableEq

/-- Compression strategy option. -/
inductive Strategy where
  | default
  | filtered
  | huffmanOnly
  | rle
deriving DecidableEq

/-- FlushMode: {None, SyncFlush, FullFlush, Finish}. -/
inductive FlushMode where
  | none
  | syncFlush
  | fullFlush
  | finish
deriving DecidableEq

/-- The codec's error conditions. -/
inductive CodecError where
  | invalidConfig
  | corruptStream
  | bufferExhausted
deriving DecidableEq

/-- Options accepted by `openSession`: level 0-9 (compress only, default 6),
windowBits 8-15 (default 15), strategy. -/
structure Options where
  level : Int
  windowBits : Int
  strategy : Strategy
deriving DecidableEq

/-- A Session: direction, the configuration it was opened with, the history
buffer, the pending-input cursor, the running checksum accumulator, the two
byte counters, and the terminal/closed flags. -/
structure Session where
  direction : Direction
  level : Int
  windowBits : Int
  strategy : Strategy
  history : List Byte
  pending : List Byte
  checksumAcc : Nat
  totalConsumed : Nat
  totalProduced : Nat
  ended : Bool
  closed : Bool
deriving DecidableEq

/-- Configuration validity: level in 0-9 and windowBits in 8-15. -/
def validOptions (o : Options) : Bool :=
  decide (0 ≤ o.level ∧ o.level ≤ 9 ∧ 8 ≤ o.windowBits ∧ o.windowBits ≤ 15)

/-- The just-opened Session for a direction and options: history buffer of
`2^windowBits` zero bytes, empty pending input, zeroed counters, active. -/
def freshSession (dir : Direction) (o : Options) : Session where
  direction := dir
  level := o.level
  windowBits := o.windowBits
  strategy := o.strategy
  history := List.replicate (2 ^ o.windowBits.toNat) 0
  pending := []
  checksumAcc := 0
  totalConsumed := 0
  totalProduced := 0
  ended := false
  closed := false

/-- `open(direction, options)`: fails with `InvalidConfig` when level or
windowBits is out of range, else allocates the history buffer. -/
def openSession (dir : Direction) (o : Options) : Except CodecError Session :=
  if validOptions o then Except.ok (freshSession dir o)
  else Except.error CodecError.invalidConfig

/-- Sum of the byte values of a chunk. -/
def byteSum (l : List Byte) : Nat :=
  List.foldl (fun a b => a + b.val) 0 l

/-- A `Nat` reduced to a byte. -/
def mkByte (n : Nat) : Byte :=
  ⟨n % 256, Nat.mod_lt n (by decide)⟩

/-- The checksum of a payload: its byte sum mod 256. -/
def checksum (l : List Byte) : Nat :=
  byteSum l % 256

/-- The checksum of a payload as a byte. -/
def checksumByte (l : List Byte) : Byte :=
  mkByte (byteSum l)

/-- Escape a payload for the wire: 0xFF is doubled, all other bytes pass
through, so that `0xFF 0x00` can serve as an unambiguous terminator. -/
def escapeBytes : List Byte → List Byte
  | [] => []
  | b :: rest =>
    if b = (255 : Byte) then 255 :: 255 :: escapeBytes rest
    else b :: escapeBytes rest

/-- The complete encoding of one finished stream with payload `S`: escaped
payload, terminator `0xFF 0x00`, checksum byte. -/
def encodeChunk (S : List Byte) : List Byte :=
  escapeBytes S ++ [(255 : Byte), 0, checksumByte S]

/-- Outcome of parsing a buffered wire prefix: a complete frame (payload,
checksum byte, trailing bytes after the frame), or more input needed, or an
invalid escape sequence. -/
inductive ParseResult where
  | done : List Byte → Byte → List Byte → ParseResult
  | needMore
  | invalid
deriving DecidableEq

/-- Prepend one decoded payload byte to a parse outcome. -/
def consRes (b : Byte) : ParseResult → ParseResult
  | ParseResult.done p ck t => ParseResult.done (b :: p) ck t
  | ParseResult.needMore => ParseResult.needMore
  | ParseResult.invalid => ParseResult.invalid

/-- Parse a buffered wire prefix: literals pass through, `0xFF 0xFF` decodes
to one 0xFF byte, `0xFF 0x00` terminates the payload and is followed by the
checksum byte; `0xFF` followed by anything else is invalid; running out of
bytes mid-frame needs more input. -/
def parseFrame : List Byte → ParseResult
  | [] => ParseResult.needMore
  | b :: rest =>
    if b = (255 : Byte) then
      match rest with
      | [] => ParseResult.needMore
      | c :: rest2 =>
        if c = (255 : Byte) then consRes 255 (parseFrame rest2)
        else if c = (0 : Byte) then
          match rest2 with
          | [] => ParseResult.needMore
          | ck :: t => ParseResult.done [] ck t
        else ParseResult.invalid
    else consRes b (parseFrame rest)

/-- `process(session, input, flush) → (output, bytesConsumed, done)`.
Closed or ended Sessions accept no further work: the call is a no-op
returning an empty chunk. Compressing emits the escaped input eagerly and on
`Finish` appends the terminator and checksum and moves to `Ended`.
Decompressing buffers input, fails with `CorruptStream` on an invalid escape,
a bad checksum, or a frame still truncated at `Finish`, and on a complete
frame emits the payload, keeps trailing bytes pending and moves to `Ended`. -/
def process (s : Session) (input : List Byte) (flush : FlushMode) :
    Except CodecError (List Byte × Nat × Bool × Session) :=
  if s.closed then Except.ok ([], 0, s.ended, s)
  else if s.ended then Except.ok ([], 0, true, s)
  else
    match s.direction with
    | Direction.compress =>
      match flush with
      | FlushMode.finish =>
        let out := escapeBytes input ++
          [(255 : Byte), 0, mkByte (s.checksumAcc + byteSum input)]
        Except.ok (out, input.length, true,
          { s with
            checksumAcc := (s.checksumAcc + byteSum input) % 256
            totalConsumed := s.totalConsumed + input.length
            totalProduced := s.totalProduced + out.length
            ended := true })
      | _ =>
        let out := escapeBytes input
        Except.ok (out, input.length, false,
          { s with
            checksumAcc := (s.checksumAcc + byteSum input) % 256
            totalConsumed := s.totalConsumed + input.length
            totalProduced := s.totalProduced + out.length })
    | Direction.decompress =>
      let buf := s.pending ++ input
      match parseFrame buf with
      | ParseResult.invalid => Except.error CodecError.corruptStream
      | ParseResult.needMore =>
        if flush = FlushMode.finish then Except.error CodecError.corruptStream
        else Except.ok ([], input.length, false,
          { s with
            pending := buf
            totalConsumed := s.totalConsumed + input.length })
      | ParseResult.done p ck t =>
        if ck.val = checksum p then
          Except.ok (p, input.length, true,
            { s with
              pending := t
              totalConsumed := s.totalConsumed + input.length
              totalProduced := s.totalProduced + p.length
              ended := true })
        else Except.error CodecError.corruptStream

/-- `bound(session, sourceLen)`: worst-case single-shot output size at the
Session's settings — every payload byte may escape to two wire bytes, plus
the two terminator bytes and the checksum byte. -/
def bound (_s : Session) (sourceLen : Nat) : Nat :=
  2 * sourceLen + 3

/-- `reset(session)`: back to the just-opened state with the same direction
and options; clears the cursors, the checksum accumulator and both counters;
the history buffer is kept as is (no reallocation). -/
def reset (s : Session) : Session :=
  { s with
    pending := []
    checksumAcc := 0
    totalConsumed := 0
    totalProduced := 0
    ended := false
    closed := false }

/-- `close(session)`: releases the history buffer and marks the Session
closed; on an already-closed Session it is a no-op. -/
def close (s : Session) : Session :=
  if s.closed then s else { s with history := [], closed := true }

/-- Does a `process`/`openSession` outcome report `InvalidConfig`? -/
def reportsInvalidConfig {α : Type} : Except CodecError α → Bool
  | Except.error CodecError.invalidConfig => true
  | _ => false

/-- Single-shot compression: open a compress Session, process the whole
payload with `Finish`, return the output chunk. -/
def compressOnce (o : Options) (S : List Byte) : Except CodecError (List Byte) :=
  (openSession Direction.compress o).bind fun s =>
    (process s S FlushMode.finish).map fun r => r.1

/-- Single-shot decompression: open a decompress Session, process the whole
wire chunk with `Finish`, return the decoded payload. -/
def decompressOnce (o : Options) (wire : List Byte) :
    Except CodecError (List Byte) :=
  (openSession Direction.decompress o).bind fun s =>
    (process s wire FlushMode.finish).map fun r => r.1

/-- Default options from the spec: level 6, windowBits 15, default strategy
(a small window variant is used in witnesses to keep terms small). -/
def smallOptions : Options where
  level := 6
  windowBits := 8
  strategy := Strategy.default

/-- A compress Session used as a concrete witness input. -/
def tinySession : Session where
  direction := Direction.compress
  level := 6
  windowBits := 8
  strategy := Strategy.default
  history := []
  pending := []
  checksumAcc := 0
  totalConsumed := 0
  totalProduced := 0
  ended := false
  closed := false

/-- A decompress Session used as a concrete witness input. -/
def tinyDecompressSession : Session :=
  { tinySession with direction := Direction.decompress }

/-- `tinySession` after one single-shot `Finish` compression of `[1]`. -/
def tinyAfterFinish : Session :=
  { tinySession with
    checksumAcc := 1
    totalConsumed := 1
    totalProduced := 4
    ended := true }

/-- `tinySession` after one `process` of `[1]` with no flush. -/
def tinyAfterNone : Session :=
  { tinySession with
    checksumAcc := 1
    totalConsumed := 1
    totalProduced := 1 }

/-- A shim translation unit compiled against zlib version `1.3` with a
112-byte `z_stream`. -/
def witnessBuild : ShimBuild where
  zlibVersion := ['1', '.', '3']
  zStreamSize := 112

/-- A linked library of a different major version, over state type `Nat`. -/
def witnessLib : ZlibLib Nat where
  libVersion := ['2', '.', '0']
  libStreamSize := 112
  deflateInit2Impl := fun s _ _ _ _ _ => (0, s + 1)
  inflateInit2Impl := fun s _ => (0, s + 1)

/- ### Helper lemmas about the wire framing. -/

theorem escapeBytes_length (l : List Byte) :
    (escapeBytes l).length ≤ 2 * l.length := by
  induction l with
  | nil => simp [escapeBytes]
  | cons b rest ih =>
    by_cases hb : b = (255 : Byte) <;> simp [escapeBytes, hb] <;> omega

theorem parseFrame_term (ck : Byte) (t : List Byte) :
    parseFrame (255 :: 0 :: ck :: t) = ParseResult.done [] ck t := rfl

theorem parseFrame_ff_ff (rest : List Byte) :
    parseFrame (255 :: 255 :: rest) = consRes 255 (parseFrame rest) := rfl

theorem parseFrame_lit (b : Byte) (rest : List Byte) (hb : ¬b = (255 : Byte)) :
    parseFrame (b :: rest) = consRes b (parseFrame rest) := by
  rw [parseFrame.eq_def]
  exact if_neg hb

/-- Completeness: parsing the encoding of a payload recovers the payload,
the checksum byte, and whatever trails the frame. -/
theorem parseFrame_encode (S : List Byte) (ck : Byte) (t : List Byte) :
    parseFrame (escapeBytes S ++ 255 :: 0 :: ck :: t) = ParseResult.done S ck t := by
  induction S with
  | nil => exact parseFrame_term ck t
  | cons b S ih =>
    by_cases hb : b = (255 : Byte)
    · subst hb
      rw [show escapeBytes (255 :: S) = 255 :: 255 :: escapeBytes S from rfl,
        List.cons_append, List.cons_append, parseFrame_ff_ff, ih]
      rfl
    · rw [show escapeBytes (b :: S) = b :: escapeBytes S by simp [escapeBytes, hb],
        List.cons_append, parseFrame_lit b _ hb, ih]
      rfl

theorem consRes_done (b : Byte) (r : ParseResult) (p : List Byte) (ck : Byte)
    (t : List Byte) (h : consRes b r = ParseResult.done p ck t) :
    ∃ p2, r = ParseResult.done p2 ck t ∧ p = b :: p2 := by
  cases r with
  | done p2 ck2 t2 =>
    simp only [consRes, ParseResult.done.injEq] at h
    obtain ⟨h1, h2, h3⟩ := h
    exact ⟨p2, by rw [h2, h3], h1.symm⟩
  | needMore => simp [consRes] at h
  | invalid => simp [consRes] at h

/-- Soundness: a buffer that parses as a complete frame is exactly the
escaped payload, the terminator, the checksum byte and the trailing rest. -/
theorem parseFrame_sound_aux :
    ∀ (n : Nat) (l : List Byte), l.length ≤ n →
      ∀ (p : List Byte) (ck : Byte) (t : List Byte),
        parseFrame l = ParseResult.done p ck t →
        l = escapeBytes p ++ 255 :: 0 :: ck :: t := by
  intro n
  induction n with
  | zero =>
    intro l hl p ck t h
    have hnil : l = [] := List.length_eq_zero.mp (Nat.le_zero.mp hl)
    subst hnil
    simp [parseFrame] at h
  | succ n ih =>
    intro l hl p ck t h
    cases l with
    | nil => simp [parseFrame] at h
    | cons b rest =>
      by_cases hb : b = (255 : Byte)
      · subst hb
        cases rest with
        | nil => simp [parseFrame] at h
        | cons c rest2 =>
          by_cases hc : c = (255 : Byte)
          · subst hc
            rw [parseFrame_ff_ff] at h
            obtain ⟨p2, hp2, hp⟩ := consRes_done _ _ _ _ _ h
            have hlen : rest2.length ≤ n := by
              simp at hl; omega
            have := ih rest2 hlen p2 ck t hp2
            subst hp
            rw [show escapeBytes (255 :: p2) = 255 :: 255 :: escapeBytes p2 from rfl]
            simp [this]
          · by_cases hc0 : c = (0 : Byte)
            · subst hc0
              cases rest2 with
              | nil => simp [parseFrame] at h
              | cons ck2 t2 =>
                rw [parseFrame_term] at h
                obtain ⟨h1, h2, h3⟩ := ParseResult.done.inj h
                subst h1; subst h2; subst h3
                rfl
            · have : parseFrame (255 :: c :: rest2) = ParseResult.invalid := by
                simp [parseFrame, hc, hc0]
              rw [this] at h
              exact absurd h (by simp)
      · rw [parseFrame_lit b rest hb] at h
        obtain ⟨p2, hp2, hp⟩ := consRes_done _ _ _ _ _ h
        have hlen : rest.length ≤ n := by
          simp at hl; omega
        have := ih rest hlen p2 ck t hp2
        subst hp
        rw [show escapeBytes (b :: p2) = b :: escapeBytes p2 by simp [escapeBytes, hb]]
        simp [this]

theorem parseFrame_sound (l : List Byte) (p : List Byte) (ck : Byte)
    (t : List Byte) (h : parseFrame l = ParseResult.done p ck t) :
    l = escapeBytes p ++ 255 :: 0 :: ck :: t :=
  parseFrame_sound_aux l.length l (Nat.le_refl _) p ck t h

/-- Single-shot compression from a fresh Session yields `encodeChunk`. -/
theorem compressOnce_eq (o : Options) (S : List Byte)
    (hv : validOptions o = true) :
    compressOnce o S = Except.ok (encodeChunk S) := by
  unfold compressOnce openSession
  rw [hv]
  simp [process, freshSession, encodeChunk, checksumByte, Except.map, Except.bind]

/-- Single-shot decompression of `encodeChunk S` recovers `S`. -/
theorem decompressOnce_encode (o : Options) (S : List Byte)
    (hv : validOptions o = true) :
    decompressOnce o (encodeChunk S) = Except.ok S := by
  have hp : parseFrame (encodeChunk S) = ParseResult.done S (checksumByte S) [] :=
    parseFrame_encode S (checksumByte S) []
  have hc : (checksumByte S).val = checksum S := rfl
  unfold decompressOnce openSession
  rw [hv]
  simp [process, freshSession, Except.map, Except.bind, hp, hc]

/- ### Claim theorems. -/

/-- C1: each renamed wrapper function returns exactly the value of the
corresponding zlib function applied to the same arguments in the same order,
and performs no state change other than what that zlib call performs (the
returned state is the zlib call's state, unchanged further). -/
theorem c1_wrappers_forward_to_zlib {σ : Type} (z : ZlibAPI σ) (st : σ)
    (level method windowBits memLevel strategy flush : Int) (sourceLen : Nat) :
    CGRPCNIOTransportZlib_deflateInit2 z st level method windowBits memLevel strategy =
        z.deflateInit2 st level method windowBits memLevel strategy ∧
    CGRPCNIOTransportZlib_deflateBound z st sourceLen = z.deflateBound st sourceLen ∧
    CGRPCNIOTransportZlib_deflate z st flush = z.deflate st flush ∧
    CGRPCNIOTransportZlib_deflateReset z st = z.deflateReset st ∧
    CGRPCNIOTransportZlib_deflateEnd z st = z.deflateEnd st ∧
    CGRPCNIOTransportZlib_inflateInit2 z st windowBits = z.inflateInit2 st windowBits ∧
    CGRPCNIOTransportZlib_inflate z st flush = z.inflate st flush ∧
    CGRPCNIOTransportZlib_inflateReset z st = z.inflateReset st ∧
    CGRPCNIOTransportZlib_inflateEnd z st = z.inflateEnd st :=
  ⟨rfl, rfl, rfl, rfl, rfl, rfl, rfl, rfl, rfl⟩

/-- C2: compressing any byte sequence with `Finish` in a Session opened with
any valid options and decompressing the output with `Finish` in a matching
Session yields exactly the original sequence. -/
theorem c2_roundtrip (o : Options) (S : List Byte)
    (hv : validOptions o = true) :
    (compressOnce o S).bind (decompressOnce o) = Except.ok S := by
  rw [compressOnce_eq o S hv]
  exact decompressOnce_encode o S hv

/-- C2 witness: round-trip of `[1, 2, 3]` at level 6, windowBits 8. -/
theorem c2_roundtrip_witness :
    validOptions smallOptions = true ∧
    (compressOnce smallOptions [1, 2, 3]).bind (decompressOnce smallOptions) =
      Except.ok [1, 2, 3] :=
  ⟨by decide, c2_roundtrip smallOptions [1, 2, 3] (by decide)⟩

/-- C3: a single `process` call with `Finish` on a compress Session never
produces output longer than `bound` of any length bounding the input. -/
theorem c3_bound_dominates (s : Session) (input : List Byte) (sourceLen : Nat)
    (out : List Byte) (n : Nat) (d : Bool) (s2 : Session)
    (hdir : s.direction = Direction.compress)
    (hlen : input.length ≤ sourceLen)
    (h : process s input FlushMode.finish = Except.ok (out, n, d, s2)) :
    out.length ≤ bound s sourceLen := by
  have he := escapeBytes_length input
  unfold process at h
  rw [hdir] at h
  by_cases hcl : s.closed
  · rw [if_pos hcl] at h
    obtain ⟨h1, _⟩ := Prod.mk.injEq .. |>.mp (Except.ok.inj h)
    subst h1
    simp [bound]
  · rw [if_neg hcl] at h
    by_cases hen : s.ended
    · rw [if_pos hen] at h
      obtain ⟨h1, _⟩ := Prod.mk.injEq .. |>.mp (Except.ok.inj h)
      subst h1
      simp [bound]
    · rw [if_neg hen] at h
      obtain ⟨h1, _⟩ := Prod.mk.injEq .. |>.mp (Except.ok.inj h)
      subst h1
      simp [bound]
      omega

/-- C3 witness: compressing `[1]` in one `Finish` call yields 4 bytes,
within `bound` at sourceLen 1. -/
theorem c3_bound_dominates_witness :
    tinySession.direction = Direction.compress ∧
    List.length [(1 : Byte)] ≤ 1 ∧
    process tinySession [1] FlushMode.finish =
      Except.ok ([1, 255, 0, 1], 1, true, tinyAfterFinish) ∧
    List.length [(1 : Byte), 255, 0, 1] ≤ bound tinySession 1 :=
  ⟨rfl, by decide, rfl,
    c3_bound_dominates tinySession [1] 1 [1, 255, 0, 1] 1 true tinyAfterFinish
      rfl (by decide) rfl⟩

/-- C4: `close` on an already-closed Session is a no-op, never an error:
the second of two successive `close` calls returns the Session unchanged. -/
theorem c4_close_idempotent (s : Session) :
    close (close s) = close s ∧ (close s).closed = true := by
  by_cases h : s.closed
  · constructor
    · simp [close, h]
    · simp [close, h]
  · constructor
    · simp [close, h]
    · simp [close, h]

/-- C5: `openSession` fails with `InvalidConfig` exactly when level is
outside 0-9 or windowBits outside 8-15, and no `process` call on any Session
ever reports `InvalidConfig`. -/
theorem c5_invalid_config_only_at_open :
    (∀ (dir : Direction) (o : Options),
      openSession dir o = Except.error CodecError.invalidConfig ↔
        (o.level < 0 ∨ 9 < o.level ∨ o.windowBits < 8 ∨ 15 < o.windowBits)) ∧
    (∀ (s : Session) (input : List Byte) (f : FlushMode),
      reportsInvalidConfig (process s input f) = false) := by
  constructor
  · intro dir o
    unfold openSession validOptions
    by_cases h : (0 ≤ o.level ∧ o.level ≤ 9 ∧ 8 ≤ o.windowBits ∧ o.windowBits ≤ 15)
    · simp [h]
    · simp [h]
      omega
  · intro s input f
    unfold process
    by_cases hcl : s.closed
    · simp [hcl, reportsInvalidConfig]
    · by_cases hen : s.ended
      · simp [hcl, hen, reportsInvalidConfig]
      · cases hd : s.direction
        · cases f <;> simp [hcl, hen, hd, reportsInvalidConfig]
        · simp only [hcl, hen, hd, Bool.false_eq_true, if_false]
          cases parseFrame (s.pending ++ input) with
          | done p ck t =>
            by_cases hck : ck.val = checksum p
            · simp [hck, reportsInvalidConfig]
            · simp [hck, reportsInvalidConfig]
          | needMore =>
            by_cases hf : f = FlushMode.finish
            · simp [hf, reportsInvalidConfig]
            · simp [hf, reportsInvalidConfig]
          | invalid => simp [reportsInvalidConfig]

/-- C6: on a decompress Session with nothing pending, a `process` call with
`Finish` either fails with `CorruptStream`, or succeeds — and then the input
really was the exact encoding of the returned payload (followed by the bytes
left pending), never a silently wrong result. -/
theorem c6_corruption_detected (s : Session) (input : List Byte)
    (hdir : s.direction = Direction.decompress) (hcl : s.closed = false)
    (hen : s.ended = false) (hp : s.pending = []) :
    process s input FlushMode.finish = Except.error CodecError.corruptStream ∨
    ∃ pl n s2, process s input FlushMode.finish = Except.ok (pl, n, true, s2) ∧
      input = encodeChunk pl ++ s2.pending := by
  unfold process
  rw [hdir, hcl, hen, hp]
  simp only [Bool.false_eq_true, if_false, List.nil_append]
  cases hpf : parseFrame input with
  | invalid => exact Or.inl rfl
  | needMore => exact Or.inl (by simp)
  | done p ck t =>
    by_cases hck : ck.val = checksum p
    · refine Or.inr ⟨p, input.length,
        { direction := Direction.decompress, level := s.level,
          windowBits := s.windowBits, strategy := s.strategy,
          history := s.history, pending := t, checksumAcc := s.checksumAcc,
          totalConsumed := s.totalConsumed + input.length,
          totalProduced := s.totalProduced + p.length,
          ended := true, closed := false }, by simp [hck], ?_⟩
      have hsnd := parseFrame_sound input p ck t hpf
      have hckb : ck = checksumByte p := by
        apply Fin.ext
        rw [hck]
        rfl
      rw [hsnd, hckb]
      simp [encodeChunk]
    · exact Or.inl (by simp [hck])

/-- C6 witness: a truncated frame (`[7]` then end of input) is rejected with
`CorruptStream` by a fresh decompress Session. -/
theorem c6_corruption_detected_witness :
    tinyDecompressSession.direction = Direction.decompress ∧
    tinyDecompressSession.closed = false ∧
    tinyDecompressSession.ended = false ∧
    tinyDecompressSession.pending = [] ∧
    (process tinyDecompressSession [7] FlushMode.finish =
        Except.error CodecError.corruptStream ∨
      ∃ pl n s2, process tinyDecompressSession [7] FlushMode.finish =
          Except.ok (pl, n, true, s2) ∧
        [(7 : Byte)] = encodeChunk pl ++ s2.pending) :=
  ⟨rfl, rfl, rfl, rfl,
    c6_corruption_detected tinyDecompressSession [7] rfl rfl rfl rfl⟩

/-- C7: `reset` returns any Session to its just-opened state for the same
direction and options — counters cleared — except that the history buffer is
left exactly as it was (no reallocation). -/
theorem c7_reset_to_fresh (s : Session) :
    reset s =
      { freshSession s.direction
          { level := s.level, windowBits := s.windowBits, strategy := s.strategy } with
        history := s.history } ∧
    (reset s).totalConsumed = 0 ∧ (reset s).totalProduced = 0 ∧
    (reset s).history = s.history ∧ (reset s).direction = s.direction ∧
    (reset s).level = s.level ∧ (reset s).windowBits = s.windowBits ∧
    (reset s).strategy = s.strategy :=
  ⟨rfl, rfl, rfl, rfl, rfl, rfl, rfl, rfl⟩

/-- C8: a successful `process` call never decreases either byte counter. -/
theorem c8_counters_monotone (s : Session) (input : List Byte) (f : FlushMode)
    (out : List Byte) (n : Nat) (d : Bool) (s2 : Session)
    (h : process s input f = Except.ok (out, n, d, s2)) :
    s.totalConsumed ≤ s2.totalConsumed ∧ s.totalProduced ≤ s2.totalProduced := by
  unfold process at h
  by_cases hcl : s.closed
  · rw [if_pos hcl] at h
    cases h
    exact ⟨Nat.le_refl _, Nat.le_refl _⟩
  · rw [if_neg hcl] at h
    by_cases hen : s.ended
    · rw [if_pos hen] at h
      cases h
      exact ⟨Nat.le_refl _, Nat.le_refl _⟩
    · rw [if_neg hen] at h
      cases hd : s.direction <;> rw [hd] at h
      · cases f <;> (cases h; simp)
      · simp only [] at h
        cases hpf : parseFrame (s.pending ++ input) <;> rw [hpf] at h <;>
          simp only [] at h
        · rename_i p ck t
          by_cases hck : ck.val = checksum p
          · rw [if_pos hck] at h
            cases h
            simp
          · rw [if_neg hck] at h
            cases h
        · by_cases hf : f = FlushMode.finish
          · rw [if_pos hf] at h
            cases h
          · rw [if_neg hf] at h
            cases h
            simp
        · cases h

/-- C8 witness: one no-flush `process` of `[1]` on a compress Session leaves
both counters no smaller. -/
theorem c8_counters_monotone_witness :
    process tinySession [1] FlushMode.none =
      Except.ok ([1], 1, false, tinyAfterNone) ∧
    tinySession.totalConsumed ≤ tinyAfterNone.totalConsumed ∧
    tinySession.totalProduced ≤ tinyAfterNone.totalProduced :=
  ⟨rfl,
    c8_counters_monotone tinySession [1] FlushMode.none [1] 1 false tinyAfterNone
      rfl⟩

/-- C9: the pointer-cast helper returns a pointer holding the same address
as its argument — the null pointer included — reads nothing from memory
(its value is independent of the memory) and leaves memory unchanged. -/
theorem c9_cast_preserves_address {μ : Type} (p : Nat) (mem mem2 : μ) :
    CGRPCNIOTransportZlib_castVoidToBytefPointer p mem = (p, mem) ∧
    (CGRPCNIOTransportZlib_castVoidToBytefPointer p mem).1 =
      (CGRPCNIOTransportZlib_castVoidToBytefPointer p mem2).1 ∧
    CGRPCNIOTransportZlib_castVoidToBytefPointer 0 mem = (0, mem) :=
  ⟨rfl, rfl, rfl⟩

/-- C10: the shim's init wrappers pass the shim's compiled-in ZLIB_VERSION
and z_stream size to the version check, and when the linked library is
incompatible with those values they return `Z_VERSION_ERROR` with the state
untouched (no initialisation happens). -/
theorem c10_version_mismatch_rejected {σ : Type} (B : ShimBuild) (L : ZlibLib σ)
    (s : σ) (level method windowBits memLevel strategy wb2 : Int)
    (h : head0 B.zlibVersion ≠ head0 L.libVersion ∨
      B.zStreamSize ≠ L.libStreamSize) :
    shimDeflateInit2Expanded B L s level method windowBits memLevel strategy =
        deflateInit2VersionChecked L s level method windowBits memLevel strategy
          (some B.zlibVersion) B.zStreamSize ∧
    shimInflateInit2Expanded B L s wb2 =
        inflateInit2VersionChecked L s wb2 (some B.zlibVersion) B.zStreamSize ∧
    shimDeflateInit2Expanded B L s level method windowBits memLevel strategy =
        (zVersionError, s) ∧
    shimInflateInit2Expanded B L s wb2 = (zVersionError, s) := by
  refine ⟨rfl, rfl, ?_, ?_⟩
  · unfold shimDeflateInit2Expanded deflateInit2VersionChecked
    exact if_pos h
  · unfold shimInflateInit2Expanded inflateInit2VersionChecked
    exact if_pos h

/-- C10 witness: a shim built against version `1.3` fed a version `2.0`
library gets `Z_VERSION_ERROR` back from both init wrappers, and the state
(here `0 : Nat`) is untouched. -/
theorem c10_version_mismatch_rejected_witness :
    (head0 witnessBuild.zlibVersion ≠ head0 witnessLib.libVersion ∨
      witnessBuild.zStreamSize ≠ witnessLib.libStreamSize) ∧
    (shimDeflateInit2Expanded witnessBuild witnessLib 0 6 8 15 8 0 =
        deflateInit2VersionChecked witnessLib 0 6 8 15 8 0
          (some witnessBuild.zlibVersion) witnessBuild.zStreamSize ∧
      shimInflateInit2Expanded witnessBuild witnessLib 0 15 =
        inflateInit2VersionChecked witnessLib 0 15
          (some witnessBuild.zlibVersion) witnessBuild.zStreamSize ∧
      shimDeflateInit2Expanded witnessBuild witnessLib 0 6 8 15 8 0 =
        (zVersionError, 0) ∧
      shimInflateInit2Expanded witnessBuild witnessLib 0 15 = (zVersionError, 0)) :=
  ⟨Or.inl (by decide),
    c10_version_mismatch_rejected witnessBuild witnessLib 0 6 8 15 8 0 15
      (Or.inl (by decide))⟩
